import Mathlib

/-!
Verification of the extraction and change-detection core of
`matcha_bot_ondemand` (files `ondemand_bot.py` and `manual_check_script.py`).

Modelling conventions (shallow embedding of the Python sources):
* Python strings are modelled as lists of Unicode code points (`PyStr := List Nat`);
  `pstr` converts a Lean string literal into this form for concrete inputs.
* `str.lower` / `\s` / `\d` are modelled on their ASCII behaviour (the
  configuration phrases, prices and indicator texts the program handles are
  covered by this fragment); this is noted at each definition.
* `float(...)` followed by `f"...{p:.2f}"` is modelled by exact decimal
  arithmetic with round-half-to-even at two decimals, which agrees with the
  IEEE-double pipeline on the magnitudes and digit counts handled here.
* Dictionaries are modelled as insertion-ordered association lists, matching
  Python dict iteration order.
* Network access is modelled as a function `fetch : PyStr → Option Soup`;
  `none` models a raised request exception, which both `check_product`
  implementations catch and turn into a `None` result.
* `ondemand_bot.py` is stored double-encoded: every euro sign in that file is
  the three-character sequence U+201A U+00C7 U+00A8 (rendered `‚Ç¨`), while
  `manual_check_script.py` contains a genuine U+20AC.  The embedding keeps the
  two files' literals as they are on disk.
-/

/-- Python strings as lists of Unicode code points. -/
abbrev PyStr := List Nat

/-- Convert a Lean string literal to its list of code points. -/
def pstr (s : String) : PyStr := s.data.map Char.toNat

/-- `str.lower()` per code point (ASCII case mapping). -/
def lowerCP (c : Nat) : Nat := if 65 ≤ c ∧ c ≤ 90 then c + 32 else c

/-- Whitespace recognised by `str.split()` / `str.strip()` / regex `\s`
(ASCII fragment: space, tab, LF, VT, FF, CR). -/
def isWs (c : Nat) : Bool := c == 32 || c == 9 || c == 10 || c == 11 || c == 12 || c == 13

/-- Negation of `isWs`, the predicate keeping word characters. -/
def notWs (c : Nat) : Bool := !isWs c

/-- `a` is a prefix of `b` (helper for the substring test). -/
def startsWith : PyStr → PyStr → Bool
  | [], _ => true
  | _ :: _, [] => false
  | a :: as, b :: bs => a == b && startsWith as bs

/-- Python's substring test `a in b`: `a` occurs contiguously in `b`. -/
def isSub (a b : PyStr) : Bool :=
  match b with
  | [] => a.isEmpty
  | _ :: bs => startsWith a b || isSub a bs

/-- Whether a string starts with a non-whitespace character (helper for `words`). -/
def headNW (cs : PyStr) : Bool :=
  match cs with
  | [] => false
  | d :: _ => !isWs d

/-- `str.split()` with no argument: the maximal runs of non-whitespace
characters, in order (empty runs never occur). -/
def words : PyStr → List PyStr
  | [] => []
  | c :: cs =>
    if isWs c then words cs
    else
      match words cs with
      | w :: ws => if headNW cs then (c :: w) :: ws else [c] :: w :: ws
      | [] => [[c]]

/-- `' '.join(parts)`: concatenate with a single space (code point 32)
between consecutive parts. -/
def joinSp : List PyStr → PyStr
  | [] => []
  | [w] => w
  | w :: ws => w ++ 32 :: joinSp ws

/-- `clean_text` from both files (`ondemand_bot.py` lines 99–104,
`manual_check_script.py` lines 85–89, character-identical):
`'' if not text else ' '.join(text.lower().split())`. -/
def clean_text (text : PyStr) : PyStr :=
  if text.isEmpty then [] else joinSp (words (text.map lowerCP))

example : clean_text (pstr "  Hello   WORLD ") = pstr "hello world" := by decide
example : clean_text (pstr "") = pstr "" := by decide

/-! ### Properties of the text normalizer -/

theorem lowerCP_idem (c : Nat) : lowerCP (lowerCP c) = lowerCP c := by
  rcases Decidable.em (65 ≤ c ∧ c ≤ 90) with h | h
  · have h1 : lowerCP c = c + 32 := if_pos h
    rw [h1]
    show (if 65 ≤ c + 32 ∧ c + 32 ≤ 90 then c + 32 + 32 else c + 32) = c + 32
    rw [if_neg (by omega)]
  · have h1 : lowerCP c = c := if_neg h
    rw [h1]; exact h1

theorem words_cons_ws {c : Nat} (cs : PyStr) (h : isWs c = true) :
    words (c :: cs) = words cs := by
  simp [words, h]

theorem words_cons_nilW {c : Nat} {cs : PyStr} (h : isWs c = false)
    (h2 : words cs = []) : words (c :: cs) = [[c]] := by
  simp [words, h, h2]

theorem words_cons_consW {c : Nat} {cs w : PyStr} {ws : List PyStr} (h : isWs c = false)
    (h2 : words cs = w :: ws) :
    words (c :: cs) = if headNW cs then (c :: w) :: ws else [c] :: w :: ws := by
  simp [words, h, h2]

/-- Every chunk produced by `words` is nonempty, whitespace-free, and made of
characters of the input. -/
theorem words_sound (l : PyStr) :
    ∀ w ∈ words l, w ≠ [] ∧ (∀ c ∈ w, notWs c = true) ∧ (∀ c ∈ w, c ∈ l) := by
  induction l with
  | nil => intro w hw; simp [words] at hw
  | cons c cs ih =>
    intro w hw
    rcases hc : isWs c with _ | _
    · -- head is a word character
      rcases h2 : words cs with _ | ⟨w', ws'⟩
      · rw [words_cons_nilW hc h2] at hw
        simp only [List.mem_singleton] at hw
        subst hw
        refine ⟨by simp, ?_, ?_⟩ <;> intro x hx <;> simp only [List.mem_singleton] at hx <;>
          subst hx
        · simp [notWs, hc]
        · simp
      · rw [words_cons_consW hc h2] at hw
        have ihw := ih
        rw [h2] at ihw
        by_cases hd : headNW cs = true
        · rw [if_pos hd] at hw
          rcases List.mem_cons.mp hw with hw | hw
          · subst hw
            obtain ⟨h1, hchars, hsub⟩ := ihw w' (by simp)
            refine ⟨by simp, ?_, ?_⟩ <;> intro x hx <;>
              rcases List.mem_cons.mp hx with hx | hx
            · subst hx; simp [notWs, hc]
            · exact hchars x hx
            · subst hx; simp
            · exact List.mem_cons_of_mem _ (hsub x hx)
          · obtain ⟨h1, hchars, hsub⟩ := ihw w (List.mem_cons_of_mem _ hw)
            exact ⟨h1, hchars, fun x hx => List.mem_cons_of_mem _ (hsub x hx)⟩
        · rw [if_neg hd] at hw
          rcases List.mem_cons.mp hw with hw | hw
          · subst hw
            refine ⟨by simp, ?_, ?_⟩ <;> intro x hx <;> simp only [List.mem_singleton] at hx <;>
              subst hx
            · simp [notWs, hc]
            · simp
          · obtain ⟨h1, hchars, hsub⟩ := ihw w hw
            exact ⟨h1, hchars, fun x hx => List.mem_cons_of_mem _ (hsub x hx)⟩
    · -- head is whitespace
      rw [words_cons_ws cs hc] at hw
      obtain ⟨h1, h2, h3⟩ := ih w hw
      exact ⟨h1, h2, fun x hx => List.mem_cons_of_mem _ (h3 x hx)⟩

/-- A nonempty whitespace-free string is a single chunk. -/
theorem words_word (w : PyStr) (hw : w ≠ []) (hnw : ∀ c ∈ w, notWs c = true) :
    words w = [w] := by
  induction w with
  | nil => exact absurd rfl hw
  | cons c cs ih =>
    have hc : isWs c = false := by
      have := hnw c (by simp)
      simpa [notWs] using this
    rcases cs with _ | ⟨d, cs'⟩
    · exact words_cons_nilW hc rfl
    · have hrec : words (d :: cs') = [d :: cs'] :=
        ih (by simp) (fun x hx => hnw x (List.mem_cons_of_mem _ hx))
      rw [words_cons_consW hc hrec]
      have hd : isWs d = false := by
        have := hnw d (by simp)
        simpa [notWs] using this
      have hhd : headNW (d :: cs') = true := by simp [headNW, hd]
      rw [if_pos hhd]

/-- Splitting a whitespace-free word followed by a space peels off that word. -/
theorem words_append (w t : PyStr) (hw : w ≠ []) (hnw : ∀ c ∈ w, notWs c = true) :
    words (w ++ 32 :: t) = w :: words t := by
  induction w with
  | nil => exact absurd rfl hw
  | cons c cs ih =>
    have hc : isWs c = false := by
      have := hnw c (by simp)
      simpa [notWs] using this
    rcases cs with _ | ⟨d, cs'⟩
    · show words (c :: 32 :: t) = [c] :: words t
      have h32 : words (32 :: t) = words t := words_cons_ws t (by decide)
      rcases ht : words t with _ | ⟨w', ws'⟩
      · rw [words_cons_nilW hc (h32.trans ht)]
      · rw [words_cons_consW hc (h32.trans ht)]
        have hh32 : headNW (32 :: t) = false := by simp [headNW, isWs]
        rw [hh32]
        simp
    · have hrec : words ((d :: cs') ++ 32 :: t) = (d :: cs') :: words t :=
        ih (by simp) (fun x hx => hnw x (List.mem_cons_of_mem _ hx))
      have hd : isWs d = false := by
        have := hnw d (by simp)
        simpa [notWs] using this
      show words (c :: ((d :: cs') ++ 32 :: t)) = (c :: d :: cs') :: words t
      have hhd : headNW ((d :: cs') ++ 32 :: t) = true := by simp [headNW, hd]
      rw [words_cons_consW hc hrec, if_pos hhd]

theorem joinSp_cons (w : PyStr) (ws : List PyStr) (h : ws ≠ []) :
    joinSp (w :: ws) = w ++ 32 :: joinSp ws := by
  rcases ws with _ | ⟨w', ws'⟩
  · exact absurd rfl h
  · rfl

/-- Splitting a space-join of nonempty whitespace-free chunks recovers them. -/
theorem words_joinSp (W : List PyStr)
    (h : ∀ w ∈ W, w ≠ [] ∧ ∀ c ∈ w, notWs c = true) :
    words (joinSp W) = W := by
  induction W with
  | nil => rfl
  | cons w ws ih =>
    rcases ws with _ | ⟨w', ws'⟩
    · show words (joinSp [w]) = [w]
      obtain ⟨h1, h2⟩ := h w (by simp)
      exact words_word w h1 h2
    · rw [joinSp_cons _ _ (by simp)]
      obtain ⟨h1, h2⟩ := h w (by simp)
      rw [words_append _ _ h1 h2, ih (fun u hu => h u (List.mem_cons_of_mem _ hu))]

theorem map_lowerCP_joinSp (W : List PyStr) :
    (joinSp W).map lowerCP = joinSp (W.map (List.map lowerCP)) := by
  induction W with
  | nil => rfl
  | cons w ws ih =>
    rcases ws with _ | ⟨w', ws'⟩
    · rfl
    · have h32 : lowerCP 32 = 32 := by decide
      calc (joinSp (w :: w' :: ws')).map lowerCP
          = List.map lowerCP w ++ lowerCP 32 :: (joinSp (w' :: ws')).map lowerCP := by
            show (w ++ 32 :: joinSp (w' :: ws')).map lowerCP = _
            rw [List.map_append, List.map_cons]
        _ = List.map lowerCP w ++ 32 :: joinSp ((w' :: ws').map (List.map lowerCP)) := by
            rw [ih, h32]
        _ = joinSp ((w :: w' :: ws').map (List.map lowerCP)) := by
            simp only [List.map_cons]
            rfl

/-- C8: the text normalizer `clean_text` is idempotent:
`clean_text (clean_text x) = clean_text x` for every text `x`. -/
theorem c8_clean_text_idempotent (x : PyStr) :
    clean_text (clean_text x) = clean_text x := by
  rcases x with _ | ⟨c, cs⟩
  · rfl
  · set l : PyStr := c :: cs with hl
    have hne : l.isEmpty = false := by simp [hl]
    have hcx : clean_text l = joinSp (words (l.map lowerCP)) := by
      simp [clean_text, hne]
    set W := words (l.map lowerCP) with hW
    have hWprops : ∀ w ∈ W, w ≠ [] ∧ ∀ ch ∈ w, notWs ch = true := by
      intro w hw
      obtain ⟨h1, h2, _⟩ := words_sound (l.map lowerCP) w hw
      exact ⟨h1, h2⟩
    have hfix : (joinSp W).map lowerCP = joinSp W := by
      rw [map_lowerCP_joinSp]
      have hmapW : W.map (List.map lowerCP) = W := by
        apply (List.map_congr_left ?_).trans (List.map_id W)
        intro w hw
        obtain ⟨_, _, h3⟩ := words_sound (l.map lowerCP) w hw
        apply (List.map_congr_left ?_).trans (List.map_id w)
        intro ch hch
        obtain ⟨a, _, rfl⟩ := List.mem_map.mp (h3 ch hch)
        exact lowerCP_idem a
      rw [hmapW]
    rw [hcx]
    by_cases hj : joinSp W = []
    · rw [hj]; rfl
    · have hne2 : (joinSp W).isEmpty = false := by
        cases h' : joinSp W
        · exact absurd h' hj
        · rfl
      have hunfold : clean_text (joinSp W) = joinSp (words ((joinSp W).map lowerCP)) := by
        simp [clean_text, hne2]
      rw [hunfold, hfix, words_joinSp W hWprops]

/-! ### Site configuration resolver

`get_site_config` is character-identical in the two files
(`ondemand_bot.py` lines 59–70, `manual_check_script.py` lines 49–58); it is
embedded once and aliased per file further below.  The loaded JSON mapping is
modelled as an insertion-ordered association list whose values are
`SiteConfig` records (a missing JSON key is an empty list, matching the
`config.get(key, [])` accesses). -/

/-- A site configuration value (`site_configs.json` entry). -/
structure SiteConfig where
  availability_selectors : List PyStr := []
  in_stock_texts : List PyStr := []
  out_of_stock_texts : List PyStr := []
  price_selectors : List PyStr := []
deriving DecidableEq

/-- Python `dict` read: first (unique) binding of the key. -/
def dictGet {α : Type} (d : List (PyStr × α)) (k : PyStr) : Option α :=
  (d.find? (fun kv => kv.1 == k)).map (fun kv => kv.2)

/-- Python `dict` write: replace the key's binding, or append a new one. -/
def dictSet {α : Type} (d : List (PyStr × α)) (k : PyStr) (v : α) : List (PyStr × α) :=
  if (d.find? (fun kv => kv.1 == k)).isSome then
    d.map (fun kv => if kv.1 == k then (k, v) else kv)
  else d ++ [(k, v)]

/-- Modelled from `urlparse(url).netloc`: the text after the first `//`,
up to the next `/`, `?` or `#`; empty when the URL has no `//`.  (For the
well-formed absolute URLs the program handles this is the URL's host part.) -/
def afterSlashes : PyStr → Option PyStr
  | 47 :: 47 :: rest => some rest
  | _ :: rest => afterSlashes rest
  | [] => none

def netloc (url : PyStr) : PyStr :=
  match afterSlashes url with
  | none => []
  | some rest => rest.takeWhile (fun c => !(c == 47 || c == 63 || c == 35))

/-- `get_site_config`'s matching loop:
`for site_domain, config in configs.items(): if site_domain in domain: return config`. -/
def configLoop (domain : PyStr) : List (PyStr × SiteConfig) → Option SiteConfig
  | [] => none
  | (k, c) :: rest => if isSub k domain then some c else configLoop domain rest

/-- `get_site_config(url)` from both files: resolve the lower-cased host,
scan the configured keys in insertion order for a substring match, and fall
back to `configs.get('default', {})`. -/
def get_site_config (configs : List (PyStr × SiteConfig)) (url : PyStr) : SiteConfig :=
  let domain := (netloc url).map lowerCP
  match configLoop domain configs with
  | some c => c
  | none => (dictGet configs (pstr "default")).getD {}

/-- Modelled from the spec (§4.1): iterate the configured host keys in
insertion order and return the first configuration whose key is a substring
of the URL's lower-cased host; if none matches return the configuration keyed
`default`; if no default exists return an empty configuration. -/
def resolveSpec (configs : List (PyStr × SiteConfig)) (url : PyStr) : SiteConfig :=
  let host := (netloc url).map lowerCP
  match configs.find? (fun kv => isSub kv.1 host) with
  | some kv => kv.2
  | none =>
    match configs.find? (fun kv => kv.1 == pstr "default") with
    | some kv => kv.2
    | none => {}

theorem configLoop_eq_find (domain : PyStr) (configs : List (PyStr × SiteConfig)) :
    configLoop domain configs = (configs.find? (fun kv => isSub kv.1 domain)).map (fun kv => kv.2) := by
  induction configs with
  | nil => rfl
  | cons kv rest ih =>
    rcases kv with ⟨k, c⟩
    by_cases h : isSub k domain = true
    · simp [configLoop, h, List.find?_cons_of_pos]
    · have h' : isSub k domain = false := by
        cases hx : isSub k domain
        · rfl
        · exact absurd hx h
      simp [configLoop, h', List.find?_cons_of_neg, ih]

/-- C7: the site-configuration resolver is total and agrees everywhere with
the spec's description: first configuration (in insertion order) whose key is
a substring of the lower-cased host, else the `default` configuration, else
an empty configuration.  `get_site_config` and `resolveSpec` are total Lean
functions, so resolution never fails. -/
theorem c7_resolver_matches_spec (configs : List (PyStr × SiteConfig)) (url : PyStr) :
    get_site_config configs url = resolveSpec configs url := by
  dsimp only [get_site_config, resolveSpec]
  rw [configLoop_eq_find]
  rcases hf : (configs.find? (fun kv => isSub kv.1 ((netloc url).map lowerCP))) with _ | kv
  · simp only [hf, Option.map_none']
    unfold dictGet
    rcases hd : (configs.find? (fun kv => kv.1 == pstr "default")) with _ | kv2 <;>
      simp [hd]
  · simp [hf]

example :
    get_site_config
      [(pstr "shop.com", { in_stock_texts := [pstr "disponibile"] }),
       (pstr "default", { in_stock_texts := [pstr "in stock"] })]
      (pstr "https://MyShop.com/p/1")
      = { in_stock_texts := [pstr "disponibile"] } := by decide

example :
    get_site_config
      [(pstr "shop.com", { in_stock_texts := [pstr "disponibile"] }),
       (pstr "default", { in_stock_texts := [pstr "in stock"] })]
      (pstr "https://other.net/p/1")
      = { in_stock_texts := [pstr "in stock"] } := by decide

example : get_site_config [] (pstr "https://other.net/p/1") = {} := by decide

/-! ### Availability cascade

The availability part of `check_product` is character-identical in the two
files (`ondemand_bot.py` lines 140–185, `manual_check_script.py` lines
111–150); it is embedded once.  A parsed page (`BeautifulSoup` object) is
modelled by the three observations the code makes of it. -/

/-- A parsed page: `soup.select(sel)` gives the `get_text()` of each matching
element, `text` is `soup.get_text()` for the whole page, and `strings` are
the page's text nodes (inputs to `soup.find_all(text=...)`). -/
structure Soup where
  select : PyStr → List PyStr
  text : PyStr
  strings : List PyStr

/-- One pass of the indicator tests on a normalized text, as run at both
cascade levels (selector text: lines 151–164; whole page: lines 170–180 of
`ondemand_bot.py`): the in-stock loop may set the verdict to `true`, then the
out-of-stock loop runs unconditionally and overwrites it with `false` on a
match. -/
def indicatorScan (inT outT : List PyStr) (txt : PyStr) : Option Bool :=
  let a : Option Bool := none
  let a := if inT.any (fun ind => isSub (clean_text ind) txt) then some true else a
  if outT.any (fun ind => isSub (clean_text ind) txt) then some false else a

/-- The selector loop of the cascade: skip selectors with no matching
elements; for a selector with elements, test the first element's cleaned
text; `break` only when a verdict was produced (`if is_available is not
None: break`). -/
def selScan (cfg : SiteConfig) (soup : Soup) : List PyStr → Option Bool
  | [] => none
  | sel :: rest =>
    match soup.select sel with
    | [] => selScan cfg soup rest
    | e :: _ =>
      match indicatorScan cfg.in_stock_texts cfg.out_of_stock_texts (clean_text e) with
      | some b => some b
      | none => selScan cfg soup rest

/-- The full availability verdict of `check_product`: selector cascade, then
whole-page scan, then the optimistic default `True`. -/
def check_available (cfg : SiteConfig) (soup : Soup) : Bool :=
  match selScan cfg soup cfg.availability_selectors with
  | some b => b
  | none =>
    match indicatorScan cfg.in_stock_texts cfg.out_of_stock_texts (clean_text soup.text) with
    | some b => b
    | none => true

/-- No phrase of either indicator list occurs in the given (already
normalized) text. -/
def NoIndicator (cfg : SiteConfig) (txt : PyStr) : Prop :=
  (∀ p ∈ cfg.in_stock_texts, isSub (clean_text p) txt = false) ∧
  (∀ p ∈ cfg.out_of_stock_texts, isSub (clean_text p) txt = false)

instance (cfg : SiteConfig) (txt : PyStr) : Decidable (NoIndicator cfg txt) := by
  unfold NoIndicator
  infer_instance

theorem indicatorScan_none_of_noIndicator {cfg : SiteConfig} {txt : PyStr}
    (h : NoIndicator cfg txt) :
    indicatorScan cfg.in_stock_texts cfg.out_of_stock_texts txt = none := by
  obtain ⟨hin, hout⟩ := h
  unfold indicatorScan
  have h1 : cfg.in_stock_texts.any (fun ind => isSub (clean_text ind) txt) = false := by
    rw [List.any_eq_false]
    intro p hp
    simp [hin p hp]
  have h2 : cfg.out_of_stock_texts.any (fun ind => isSub (clean_text ind) txt) = false := by
    rw [List.any_eq_false]
    intro p hp
    simp [hout p hp]
  rw [h1, h2]
  simp

/-- C4: when no selector element text and no whole-page text contains any
in-stock or out-of-stock indicator phrase, `check_product` yields
`available = true` (the optimistic default) — never false or unknown. -/
theorem c4_default_available (cfg : SiteConfig) (soup : Soup)
    (hsel : ∀ sel ∈ cfg.availability_selectors, ∀ e ∈ soup.select sel,
      NoIndicator cfg (clean_text e))
    (hpage : NoIndicator cfg (clean_text soup.text)) :
    check_available cfg soup = true := by
  have hscan : selScan cfg soup cfg.availability_selectors = none := by
    have : ∀ sels, (∀ sel ∈ sels, ∀ e ∈ soup.select sel, NoIndicator cfg (clean_text e)) →
        selScan cfg soup sels = none := by
      intro sels
      induction sels with
      | nil => intro _; rfl
      | cons sel rest ih =>
        intro hall
        rcases hse : soup.select sel with _ | ⟨e, es⟩
        · simp only [selScan, hse]
          exact ih (fun s hs => hall s (List.mem_cons_of_mem _ hs))
        · have hni : NoIndicator cfg (clean_text e) := by
            have := hall sel (by simp) e
            rw [hse] at this
            exact this (by simp)
          simp only [selScan, hse, indicatorScan_none_of_noIndicator hni]
          exact ih (fun s hs => hall s (List.mem_cons_of_mem _ hs))
    exact this cfg.availability_selectors hsel
  unfold check_available
  rw [hscan, indicatorScan_none_of_noIndicator hpage]

/-- Witness for C4 at a concrete configuration and page. -/
theorem c4_default_available_witness :
    check_available
      { availability_selectors := [pstr ".stock"],
        in_stock_texts := [pstr "disponibile"],
        out_of_stock_texts := [pstr "esaurito"] }
      { select := fun s => if s = pstr ".stock" then [pstr "Spedizione gratis"] else [],
        text := pstr "Matcha premium 40g",
        strings := [] } = true := by
  apply c4_default_available
  · intro sel hsel e he
    have hs : sel = pstr ".stock" := by
      simpa using hsel
    subst hs
    simp only [if_pos rfl] at he
    have he' : e = pstr "Spedizione gratis" := by simpa using he
    subst he'
    decide
  · decide

/-- C9: at both cascade levels the indicator tests run the out-of-stock list
after the in-stock list, so a text containing a phrase from each list gets
the verdict `available = false` (`indicatorScan` is the engine of both the
selector level and the whole-page level of `check_product`). -/
theorem c9_out_of_stock_overrides (inT outT : List PyStr) (txt p q : PyStr)
    (hp : p ∈ inT) (hpsub : isSub (clean_text p) txt = true)
    (hq : q ∈ outT) (hqsub : isSub (clean_text q) txt = true) :
    indicatorScan inT outT txt = some false := by
  unfold indicatorScan
  have hany : outT.any (fun ind => isSub (clean_text ind) txt) = true := by
    rw [List.any_eq_true]
    exact ⟨q, hq, by simp [hqsub]⟩
  simp [hany]

/-- Witness for C9 at a concrete text containing indicators of both lists. -/
theorem c9_out_of_stock_overrides_witness :
    indicatorScan [pstr "disponibile"] [pstr "esaurito"]
      (pstr "disponibile a breve: ora esaurito") = some false := by
  apply c9_out_of_stock_overrides _ _ _ (pstr "disponibile") (pstr "esaurito")
  · decide
  · decide
  · decide
  · decide

/-! ### Selector priority (claim C2) -/

/-- The page-level fallback shared by the cascade variants: whole-page scan,
then the optimistic default. -/
def pageFallback (cfg : SiteConfig) (soup : Soup) : Bool :=
  match indicatorScan cfg.in_stock_texts cfg.out_of_stock_texts (clean_text soup.text) with
  | some b => b
  | none => true

/-- Modelled from the spec invariant quoted by claim C2: the first selector
yielding any matching element wins — once some selector matches at least one
element, no later selector is consulted, even if that selector's element text
resolves no verdict (in which case the cascade would move on to the
whole-page scan). -/
def cascadeFirstElement (cfg : SiteConfig) (soup : Soup) : Bool :=
  match cfg.availability_selectors.findSome?
      (fun sel => match soup.select sel with
        | [] => none
        | e :: _ => some (indicatorScan cfg.in_stock_texts cfg.out_of_stock_texts (clean_text e))) with
  | some (some b) => b
  | _ => pageFallback cfg soup

/-- Configuration used to separate the implementation from claim C2's
reading: two selectors, the first of which matches an element whose text
yields no verdict. -/
def c2cfg : SiteConfig :=
  { availability_selectors := [pstr ".badge", pstr ".stock"],
    out_of_stock_texts := [pstr "esaurito"] }

def c2soup : Soup :=
  { select := fun s =>
      if s = pstr ".badge" then [pstr "novita"]
      else if s = pstr ".stock" then [pstr "Esaurito"] else [],
    text := pstr "pagina prodotto",
    strings := [] }

/-- Counterexample to C2 as stated: with `c2cfg`/`c2soup` the first selector
(`.badge`) matches an element whose text resolves no verdict; the
implementation still consults the second selector and returns `false`, while
under the claimed first-element-wins rule the verdict would fall through to
the page scan and default to `true`. -/
theorem c2_counterexample :
    check_available c2cfg c2soup ≠ cascadeFirstElement c2cfg c2soup := by
  decide

/-- The selector loop expressed with `findSome?`: the first selector that
yields both a matching element and a verdict. -/
theorem selScan_eq_findSome (cfg : SiteConfig) (soup : Soup) (sels : List PyStr) :
    selScan cfg soup sels =
      sels.findSome? (fun sel => match soup.select sel with
        | [] => none
        | e :: _ => indicatorScan cfg.in_stock_texts cfg.out_of_stock_texts (clean_text e)) := by
  induction sels with
  | nil => rfl
  | cons sel rest ih =>
    rw [List.findSome?_cons]
    rcases hse : soup.select sel with _ | ⟨e, es⟩
    · simp only [selScan, hse, ih]
    · rcases hi : indicatorScan cfg.in_stock_texts cfg.out_of_stock_texts (clean_text e) with _ | b
      · simp only [selScan, hse, hi, ih]
      · simp only [selScan, hse, hi]

/-- C2 amended: selector order defines priority among selectors that yield a
matching element *and* a verdict — the implementation's availability result
equals the cascade in which the first selector whose first matched element's
text resolves a verdict wins, selectors with elements but no verdict are
skipped in favour of later selectors, and only when no selector yields a
verdict does the whole-page scan (then the optimistic default) apply. -/
theorem c2_amended_first_verdict_wins (cfg : SiteConfig) (soup : Soup) :
    check_available cfg soup =
      match cfg.availability_selectors.findSome?
          (fun sel => match soup.select sel with
            | [] => none
            | e :: _ => indicatorScan cfg.in_stock_texts cfg.out_of_stock_texts (clean_text e)) with
      | some b => b
      | none => pageFallback cfg soup := by
  unfold check_available
  rw [selScan_eq_findSome]
  rcases h : cfg.availability_selectors.findSome?
      (fun sel => match soup.select sel with
        | [] => none
        | e :: _ => indicatorScan cfg.in_stock_texts cfg.out_of_stock_texts (clean_text e)) with _ | b
  · rfl
  · rfl

/-! ### Change detector and batch persistence

The change-classification branch structure is identical in
`ondemand_bot.check_all_products_manual` (lines 451–468) and
`manual_check_script.check_all_products` (lines 217–234); only the message
strings differ.  It is embedded once as `classifyChange` over one stored
product and one fresh check result. -/

/-- The result of one `check_product` call (`{'available': ..., 'price': ...,
'last_checked': ...}`); timestamps are modelled as natural numbers. -/
structure CheckResultR where
  available : Bool
  price : Option PyStr
  last_checked : Nat
deriving DecidableEq

/-- A stored product record (an entry of `products.json`); the `available`,
`price` and `last_checked` keys may be absent. -/
structure Product where
  url : PyStr
  available : Option Bool
  price : Option PyStr
  last_checked : Option Nat
deriving DecidableEq

/-- The three outcomes the batch loop distinguishes for one product. -/
inductive Outcome
  | StateChanged (fr tgt : Bool) (price : Option PyStr)
  | PriceChanged (oldP newP : PyStr)
  | Unchanged
deriving DecidableEq

/-- The classification branch of the batch loop, as written in the code:
`if 'available' in product and product['available'] != result['available']`,
`elif product.get('price') != result.get('price') and product.get('price')
is not None and result.get('price') is not None`, else no notification. -/
def classifyChange (product : Product) (result : CheckResultR) : Outcome :=
  if product.available.isSome ∧ product.available ≠ some result.available then
    Outcome.StateChanged (product.available.getD result.available) result.available result.price
  else if product.price ≠ result.price ∧ product.price ≠ none ∧ result.price ≠ none then
    Outcome.PriceChanged (product.price.getD []) (result.price.getD [])
  else
    Outcome.Unchanged

/-- Modelled from the spec (§4.6) as quoted by claim C3: `StateChanged`
exactly when the prior availability is present and differs (taking priority
over price detection); `PriceChanged` exactly when no state change occurred
and both prices are present and non-equal; otherwise `Unchanged` (in
particular for an absent→present or present→absent price transition). -/
def classifySpec (product : Product) (result : CheckResultR) : Outcome :=
  match product.available with
  | some a =>
    if a ≠ result.available then
      Outcome.StateChanged a result.available result.price
    else
      match product.price, result.price with
      | some op, some np =>
        if op ≠ np then Outcome.PriceChanged op np else Outcome.Unchanged
      | _, _ => Outcome.Unchanged
  | none =>
    match product.price, result.price with
    | some op, some np =>
      if op ≠ np then Outcome.PriceChanged op np else Outcome.Unchanged
    | _, _ => Outcome.Unchanged

/-- C3: the implemented change classification coincides with the reference
definition of the spec for every stored record and every check result. -/
theorem c3_classify_matches_spec (product : Product) (result : CheckResultR) :
    classifyChange product result = classifySpec product result := by
  rcases product with ⟨u, av, pr, lc⟩
  rcases result with ⟨ra, rp, rl⟩
  rcases av with _ | a
  · rcases pr with _ | op <;> rcases rp with _ | np
    · simp [classifyChange, classifySpec]
    · simp [classifyChange, classifySpec]
    · simp [classifyChange, classifySpec]
    · by_cases hop : op = np <;> simp [classifyChange, classifySpec, hop]
  · by_cases ha : a = ra
    · subst ha
      rcases pr with _ | op <;> rcases rp with _ | np
      · simp [classifyChange, classifySpec]
      · simp [classifyChange, classifySpec]
      · simp [classifyChange, classifySpec]
      · by_cases hop : op = np <;> simp [classifyChange, classifySpec, hop]
    · simp [classifyChange, classifySpec, ha]

/-- `product.update({...})` followed by `updated_products.append(product)`:
the record mutated in place with the fresh check result. -/
def updateProduct (p : Product) (r : CheckResultR) : Product :=
  { p with available := some r.available, price := r.price,
           last_checked := some r.last_checked }

/-- The list passed to `save_products` by
`ondemand_bot.check_all_products_manual` (lines 437–478): results are
computed per URL (`asyncio.gather` over `check_product`; `check_product`
catches every exception and returns `None`, so no `Exception` instances
reach the loop), and a product whose result is `None` is skipped
(`continue`) — it is **not** appended to `updated_products`. -/
def odSavedProducts (check : PyStr → Option CheckResultR) : List Product → List Product
  | [] => []
  | p :: ps =>
    match check p.url with
    | none => odSavedProducts check ps
    | some r => updateProduct p r :: odSavedProducts check ps

/-- The list passed to `save_products` by
`manual_check_script.check_all_products` (lines 204–248): a product whose
check returns `None` is appended **unchanged** before `continue`. -/
def msSavedProducts (check : PyStr → Option CheckResultR) : List Product → List Product
  | [] => []
  | p :: ps =>
    match check p.url with
    | none => p :: msSavedProducts check ps
    | some r => updateProduct p r :: msSavedProducts check ps

/-- A concrete stored product for the C1 evaluation. -/
def c1prod : Product :=
  { url := pstr "https://shop.com/matcha",
    available := some true,
    price := some (pstr "€10.00"),
    last_checked := some 100 }

/-- C1 (failing evaluation): when every check fails, the list persisted by
`ondemand_bot.check_all_products_manual` is empty — the untouched prior
record has been removed from the product set — whereas
`manual_check_script.check_all_products` keeps the record unchanged, as the
spec requires. -/
theorem c1_failed_check_drops_record :
    odSavedProducts (fun _ => none) [c1prod] = [] ∧
    msSavedProducts (fun _ => none) [c1prod] = [c1prod] := by
  constructor <;> rfl

/-! ### Price extraction

`extract_price` uses `re.search` with five fixed patterns.  The engine below
implements Python's backtracking search for exactly the constructs those
patterns use: literal characters, character classes, and the quantifiers
`?`, `*`, `+`, `{2}` — leftmost starting position first, and at a given
position the usual preference order (greedy quantifiers, longest first).
`re.IGNORECASE` is modelled by comparing code points through `lowerCP`.
Each pattern has a single capture group spanning a contiguous token run, so
a pattern is kept as (tokens before the group, group tokens, tokens after). -/

inductive Quant
  | one
  | opt
  | star
  | plus
  | two
deriving DecidableEq

/-- One regex token: a character class with a quantifier (a literal is a
one-element class). -/
structure Tok where
  cs : List Nat
  q : Quant

/-- Caseless class membership (`re.IGNORECASE`). -/
def tokMem (t : Tok) (c : Nat) : Bool :=
  t.cs.any (fun a => lowerCP a == lowerCP c)

/-- Length of the run of leading characters in the class. -/
def leadCount (t : Tok) (l : List Nat) : Nat :=
  (l.takeWhile (tokMem t)).length

/-- The consumption counts a token may take on the given suffix, in
backtracking preference order. -/
def matchQ (t : Tok) (l : List Nat) : List Nat :=
  match t.q with
  | Quant.one =>
    match l with
    | c :: _ => if tokMem t c then [1] else []
    | [] => []
  | Quant.opt =>
    match l with
    | c :: _ => if tokMem t c then [1, 0] else [0]
    | [] => [0]
  | Quant.star => ((List.range (leadCount t l + 1)).reverse)
  | Quant.plus => (((List.range (leadCount t l)).map (fun k => k + 1)).reverse)
  | Quant.two =>
    match l with
    | a :: b :: _ => if tokMem t a && tokMem t b then [2] else []
    | _ => []

/-- Total consumption counts of a token sequence on the given suffix, in
backtracking preference order. -/
def matchSeq : List Tok → List Nat → List Nat
  | [], _ => [0]
  | t :: ts, l => (matchQ t l).flatMap (fun k => (matchSeq ts (l.drop k)).map (fun m => k + m))

/-- A pattern with one capture group: tokens before, inside and after it. -/
structure Pat where
  pre : List Tok
  grp : List Tok
  post : List Tok

/-- Try the pattern anchored at the start of `l`; return the text captured
by the group under the first (most preferred) full match. -/
def searchAt (p : Pat) (l : List Nat) : Option (List Nat) :=
  ((matchSeq p.pre l).flatMap (fun k1 =>
    (matchSeq p.grp (l.drop k1)).filterMap (fun k2 =>
      if (matchSeq p.post (l.drop (k1 + k2))).isEmpty then none
      else some ((l.drop k1).take k2)))).head?

/-- `re.search`: try every start position, leftmost first. -/
def reSearch (p : Pat) : List Nat → Option (List Nat)
  | [] => searchAt p []
  | c :: rest =>
    match searchAt p (c :: rest) with
    | some g => some g
    | none => reSearch p rest

/-- Existence-only search (for `re.compile` used with `find_all`). -/
def reMatches (toks : List Tok) (l : List Nat) : Bool :=
  (reSearch ⟨[], toks, []⟩ l).isSome

/-- Literal-character token. -/
def litTok (c : Nat) : Tok := ⟨[c], Quant.one⟩

/-- Digit class `\d` (ASCII digits; Python also accepts other Unicode
decimal digits, which prices do not contain). -/
def digChars : List Nat := (List.range 10).map (fun i => 48 + i)

def wsChars : List Nat := [32, 9, 10, 11, 12, 13]

def wsStar : Tok := ⟨wsChars, Quant.star⟩
def digPlus : Tok := ⟨digChars, Quant.plus⟩
def digStar : Tok := ⟨digChars, Quant.star⟩
def dcOpt : Tok := ⟨[46, 44], Quant.opt⟩
def dcOne : Tok := ⟨[46, 44], Quant.one⟩
def digTwo : Tok := ⟨digChars, Quant.two⟩

/-- The tokens of the literal `EUR` (matched caselessly). -/
def eurToks : List Tok := [litTok 69, litTok 85, litTok 82]

/-- The five `price_patterns`, in priority order, parametrised by the file's
currency-symbol literal `euro`:
`euro\s*(\d+[.,]?\d*)`, `(\d+[.,]?\d*)\s*euro`, `EUR\s*(\d+[.,]?\d*)`,
`(\d+[.,]?\d*)\s*EUR`, `(\d+[.,]\d{2})`. -/
def pricePatterns (euro : List Nat) : List Pat :=
  [ ⟨euro.map litTok ++ [wsStar], [digPlus, dcOpt, digStar], []⟩,
    ⟨[], [digPlus, dcOpt, digStar], [wsStar] ++ euro.map litTok⟩,
    ⟨eurToks ++ [wsStar], [digPlus, dcOpt, digStar], []⟩,
    ⟨[], [digPlus, dcOpt, digStar], [wsStar] ++ eurToks⟩,
    ⟨[], [digPlus, dcOne, digTwo], []⟩ ]

/-- Value of an all-digit string (`none` models a `float()` `ValueError`). -/
def digitsVal (l : PyStr) : Option Nat :=
  if l.all (fun c => decide (48 ≤ c ∧ c ≤ 57)) then
    some (l.foldl (fun a c => a * 10 + (c - 48)) 0)
  else none

/-- `float(g)` followed by rounding at two decimals (round half to even),
returned in hundredths.  This models the `float` + `f"{p:.2f}"` pipeline
exactly for the digit counts and magnitudes the patterns produce (a
double-rounding artefact is possible only beyond 15 significant digits or on
ties introduced by binary representation error, neither of which occurs in
the evaluations below). -/
def floatHundredths (g : PyStr) : Option Nat :=
  let ip := g.takeWhile (fun c => c != 46)
  let rest := g.dropWhile (fun c => c != 46)
  match digitsVal ip with
  | none => none
  | some iv =>
    match rest with
    | [] => some (iv * 100)
    | _ :: f =>
      if f.isEmpty then some (iv * 100)
      else
        match digitsVal f with
        | none => none
        | some fv =>
          let d := 10 ^ f.length
          let n := (iv * d + fv) * 100
          let q := n / d
          let r := n % d
          some (if 2 * r < d then q
                else if d < 2 * r then q + 1
                else if q % 2 = 0 then q else q + 1)

/-- Decimal digits of a natural number (code points). -/
def natDigitsAux : Nat → Nat → List Nat
  | 0, _ => []
  | fuel + 1, n => if n = 0 then [] else natDigitsAux fuel (n / 10) ++ [48 + n % 10]

def natDigits (n : Nat) : List Nat :=
  if n = 0 then [48] else natDigitsAux n n

/-- `f"{price:.2f}"` of a value given in hundredths. -/
def twoDec (h : Nat) : List Nat :=
  natDigits (h / 100) ++ [46] ++ [48 + h % 100 / 10, 48 + h % 100 % 10]

/-- `extract_price(text)` parametrised by the file's currency-symbol literal
(used both in the first two patterns and in the returned f-string):
return `None` on falsy input; strip `' '` and turn `','` into `'.'`;
try the patterns in order; on a match, `float` the group (a `ValueError`
moves on to the next pattern) and format as the symbol plus two decimals. -/
def extractPriceCore (euro : List Nat) (text : PyStr) : Option PyStr :=
  if text.isEmpty then none
  else
    let t := (text.filter (fun c => c != 32)).map (fun c => if c == 44 then 46 else c)
    (pricePatterns euro).findSome? (fun p =>
      match reSearch p t with
      | none => none
      | some g =>
        match floatHundredths (g.map (fun c => if c == 44 then 46 else c)) with
        | none => none
        | some h => some (euro ++ twoDec h))

/-- `str.strip()`: drop leading and trailing whitespace. -/
def pyStrip (l : PyStr) : PyStr :=
  ((l.dropWhile isWs).reverse.dropWhile isWs).reverse

/-- The in-memory cache `CACHE` of `ondemand_bot.py`: URL → (timestamp,
result), modelled as an association list (it is only ever indexed, never
iterated). -/
abbrev Cache := List (PyStr × (Nat × CheckResultR))

namespace OD

/-- The euro-sign "literal" of `ondemand_bot.py` as Python reads the file:
the bytes on disk are a double-encoded U+20AC, so every source euro sign is
the three-character sequence U+201A U+00C7 U+00A8 (`‚Ç¨`). -/
def euroSign : List Nat := [8218, 199, 168]

/-- `extract_price` of `ondemand_bot.py` (lines 72–97); its symbol patterns
and its output prefix both use the file's `euroSign` characters. -/
def extract_price (text : PyStr) : Option PyStr := extractPriceCore euroSign text

/-- `clean_text` of `ondemand_bot.py` (lines 99–104). -/
def clean_text (text : PyStr) : PyStr :=
  if text.isEmpty then [] else joinSp (words (text.map lowerCP))

/-- `get_site_config` of `ondemand_bot.py` (lines 59–70). -/
def get_site_config (configs : List (PyStr × SiteConfig)) (url : PyStr) : SiteConfig :=
  let domain := (netloc url).map lowerCP
  match configLoop domain configs with
  | some c => c
  | none => (dictGet configs (pstr "default")).getD {}

/-- The `find_all(text=re.compile(...))` filter of line 200: a text node
matching `[‚Ç¨]\s*\d+[.,]?\d*` or `\d+[.,]?\d*\s*[‚Ç¨]` (the char class holds
the file's three euro-sign characters). -/
def priceNodeMatch (s : PyStr) : Bool :=
  reMatches [⟨euroSign, Quant.one⟩, wsStar, digPlus, dcOpt, digStar] s ||
  reMatches [digPlus, dcOpt, digStar, wsStar, ⟨euroSign, Quant.one⟩] s

/-- The price cascade of `check_product` (lines 187–204): first price
selector whose first element's stripped text yields a price, else
`extract_price` on the first text node matching the currency regex. -/
def findPrice (cfg : SiteConfig) (soup : Soup) : Option PyStr :=
  match cfg.price_selectors.findSome? (fun sel =>
      match soup.select sel with
      | [] => none
      | e :: _ => extract_price (pyStrip e)) with
  | some p => some p
  | none =>
    match soup.strings.find? priceNodeMatch with
    | some s => extract_price s
    | none => none

def CACHE_DURATION : Nat := 60

/-- The fetch-and-extract path of `check_product` (lines 121–216): a failed
request is caught and turns into `None` with the cache untouched; a
successful extraction is cached under `url` with timestamp `now`. -/
def checkFetch (configs : List (PyStr × SiteConfig)) (fetch : PyStr → Option Soup)
    (now : Nat) (cache : Cache) (url : PyStr) : Option CheckResultR × Cache :=
  match fetch url with
  | none => (none, cache)
  | some soup =>
    let config := get_site_config configs url
    let r : CheckResultR :=
      { available := check_available config soup,
        price := findPrice config soup,
        last_checked := now }
    (some r, dictSet cache url (now, r))

/-- `check_product` of `ondemand_bot.py` (lines 110–220): serve a cache
entry younger than `CACHE_DURATION` unchanged (no fetch), else fetch and
extract.  `now` is the single `datetime.now()` taken at the top of the
function; `now - t < 60` on naturals agrees with the signed comparison
because a cached timestamp never exceeds the current time. -/
def check_product (configs : List (PyStr × SiteConfig)) (fetch : PyStr → Option Soup)
    (now : Nat) (cache : Cache) (url : PyStr) : Option CheckResultR × Cache :=
  match dictGet cache url with
  | some (t, r) =>
    if now - t < CACHE_DURATION then (some r, cache)
    else checkFetch configs fetch now cache url
  | none => checkFetch configs fetch now cache url

end OD

namespace MS

/-- The euro sign of `manual_check_script.py` (a genuine U+20AC). -/
def euroSign : List Nat := [8364]

/-- `extract_price` of `manual_check_script.py` (lines 60–83). -/
def extract_price (text : PyStr) : Option PyStr := extractPriceCore euroSign text

/-- `clean_text` of `manual_check_script.py` (lines 85–89). -/
def clean_text (text : PyStr) : PyStr :=
  if text.isEmpty then [] else joinSp (words (text.map lowerCP))

/-- `get_site_config` of `manual_check_script.py` (lines 49–58). -/
def get_site_config (configs : List (PyStr × SiteConfig)) (url : PyStr) : SiteConfig :=
  let domain := (netloc url).map lowerCP
  match configLoop domain configs with
  | some c => c
  | none => (dictGet configs (pstr "default")).getD {}

/-- The `find_all(text=re.compile(...))` filter of line 163:
`[€]\s*\d+[.,]?\d*|\d+[.,]?\d*\s*[€]`. -/
def priceNodeMatch (s : PyStr) : Bool :=
  reMatches [⟨euroSign, Quant.one⟩, wsStar, digPlus, dcOpt, digStar] s ||
  reMatches [digPlus, dcOpt, digStar, wsStar, ⟨euroSign, Quant.one⟩] s

/-- The price cascade of `check_product` (lines 152–167). -/
def findPrice (cfg : SiteConfig) (soup : Soup) : Option PyStr :=
  match cfg.price_selectors.findSome? (fun sel =>
      match soup.select sel with
      | [] => none
      | e :: _ => extract_price (pyStrip e)) with
  | some p => some p
  | none =>
    match soup.strings.find? priceNodeMatch with
    | some s => extract_price s
    | none => none

/-- `check_product` of `manual_check_script.py` (lines 91–180): no cache —
every call fetches, and a failed request is caught and becomes `None`.
`now` models the `datetime.now()` used for `last_checked`. -/
def check_product (configs : List (PyStr × SiteConfig)) (fetch : PyStr → Option Soup)
    (now : Nat) (url : PyStr) : Option CheckResultR :=
  match fetch url with
  | none => none
  | some soup =>
    let config := get_site_config configs url
    some { available := check_available config soup,
           price := findPrice config soup,
           last_checked := now }

end MS

example : MS.extract_price (pstr "€ 12,5") = some (pstr "€12.50") := by decide
example : MS.extract_price (pstr "12.34") = some (pstr "€12.34") := by decide
example : MS.extract_price (pstr "price: 1 234,56 EUR") = some (pstr "€1234.56") := by decide
example : MS.extract_price (pstr "") = none := by decide
example : OD.extract_price (pstr "€ 12,5") = none := by decide

/-- C5 (failing evaluation): on the spec's own example `"€ 12,5"`,
`extract_price` of `ondemand_bot.py` returns `None` — its currency patterns
look for the file's double-encoded euro characters, and the genuine `€` and
the single decimal leave no pattern matching — instead of `"€12.50"`.  On a
two-decimal amount `"€ 12,34"` it does match (via the bare-amount pattern)
but returns the double-encoded prefix, not `"€"`.  The sibling
`manual_check_script.py` copy behaves as the claim states. -/
theorem c5_extract_price_mojibake :
    OD.extract_price (pstr "€ 12,5") = none ∧
    OD.extract_price (pstr "€ 12,34") = some (OD.euroSign ++ pstr "12.34") ∧
    MS.extract_price (pstr "€ 12,5") = some (pstr "€12.50") := by
  refine ⟨by decide, by decide, by decide⟩

/-- C10 counterexample: the two files' `extract_price` are not extensionally
equal — on `"12.34"` the bare-amount pattern fires in both, but
`ondemand_bot.py` prefixes its double-encoded euro characters while
`manual_check_script.py` prefixes `"€"`. -/
theorem c10_counterexample :
    OD.extract_price (pstr "12.34") ≠ MS.extract_price (pstr "12.34") := by
  decide

/-- C10 amended: `clean_text` and `get_site_config` are extensionally equal
across the two files (their sources are character-identical); `extract_price`
is not, because every euro sign in `ondemand_bot.py` is the double-encoded
three-character sequence, which changes both its symbol patterns and its
output prefix. -/
theorem c10_amended_helpers_equal :
    (∀ t : PyStr, OD.clean_text t = MS.clean_text t) ∧
    (∀ (configs : List (PyStr × SiteConfig)) (url : PyStr),
      OD.get_site_config configs url = MS.get_site_config configs url) := by
  exact ⟨fun _ => rfl, fun _ _ => rfl⟩

/-! ### The result cache (claim C6) -/

theorem find_map_upd {α : Type} (k : PyStr) (v : α) (d : List (PyStr × α)) :
    (d.find? (fun kv => kv.1 == k)).isSome = true →
    (d.map (fun kv => if kv.1 == k then (k, v) else kv)).find? (fun kv => kv.1 == k)
      = some (k, v) := by
  induction d with
  | nil => intro h; simp at h
  | cons kv d' ih =>
    intro h
    rcases hk : (kv.1 == k) with _ | _
    · simp only [List.map_cons, hk, Bool.false_eq_true, if_false]
      simp only [List.find?, hk]
      apply ih
      simp only [List.find?, hk] at h
      exact h
    · simp only [List.map_cons, hk, if_true]
      simp [List.find?]

theorem find_append_single {α : Type} (k : PyStr) (v : α) (d : List (PyStr × α))
    (hnone : d.find? (fun kv => kv.1 == k) = none) :
    (d ++ [(k, v)]).find? (fun kv => kv.1 == k) = some (k, v) := by
  induction d with
  | nil => simp [List.find?]
  | cons kv d' ih =>
    rcases hk : (kv.1 == k) with _ | _
    · simp only [List.cons_append, List.find?, hk]
      apply ih
      simp only [List.find?, hk] at hnone
      exact hnone
    · simp only [List.find?, hk] at hnone
      exact absurd hnone (by simp)

theorem dictGet_dictSet {α : Type} (d : List (PyStr × α)) (k : PyStr) (v : α) :
    dictGet (dictSet d k v) k = some v := by
  unfold dictSet
  by_cases h : (d.find? (fun kv => kv.1 == k)).isSome = true
  · rw [if_pos h]
    unfold dictGet
    rw [find_map_upd k v d h]
    rfl
  · rw [if_neg h]
    have hnone : d.find? (fun kv => kv.1 == k) = none := by
      rcases hd : d.find? (fun kv => kv.1 == k) with _ | x
      · exact hd
      · rw [hd] at h; simp at h
    unfold dictGet
    rw [find_append_single k v d hnone]
    rfl

/-- A trivial parsed page for the concrete cache evaluations. -/
def c6soup : Soup :=
  { select := fun _ => [], text := pstr "matcha", strings := [] }

/-- C6 counterexample: `manual_check_script.check_product` has no cache — a
first successful call leaves no stored result, and a second call ten seconds
later with the network unavailable returns `None` instead of the first
call's result. -/
theorem c6_counterexample :
    MS.check_product [] (fun _ => some c6soup) 0 (pstr "https://shop.com/p")
      = some { available := true, price := none, last_checked := 0 } ∧
    MS.check_product [] (fun _ => none) 10 (pstr "https://shop.com/p") = none := by
  constructor <;> rfl

/-- C6 amended, for the cached engine `ondemand_bot.check_product`: after a
successful first call on a URL with no cache entry, any call within 60
seconds returns the stored result unchanged — original `last_checked`
included — and leaves the cache untouched, whatever the network does
(`fetch2` is arbitrary, so the second call succeeds with no fetch even when
the network is down). -/
theorem c6_amended_cache (configs : List (PyStr × SiteConfig))
    (fetch1 : PyStr → Option Soup) (now1 : Nat) (st : Cache) (url : PyStr)
    (r : CheckResultR) (st2 : Cache)
    (hmiss : dictGet st url = none)
    (hfirst : OD.check_product configs fetch1 now1 st url = (some r, st2)) :
    ∀ (fetch2 : PyStr → Option Soup) (now2 : Nat), now2 - now1 < 60 →
      OD.check_product configs fetch2 now2 st2 url = (some r, st2) := by
  intro fetch2 now2 hlt
  unfold OD.check_product at hfirst
  rw [hmiss] at hfirst
  unfold OD.checkFetch at hfirst
  rcases hf : fetch1 url with _ | soup
  · rw [hf] at hfirst
    simp at hfirst
  · rw [hf] at hfirst
    simp only [Prod.mk.injEq, Option.some.injEq] at hfirst
    obtain ⟨hr, hst⟩ := hfirst
    subst hr
    subst hst
    unfold OD.check_product
    simp only [dictGet_dictSet]
    rw [if_pos (show now2 - now1 < OD.CACHE_DURATION from hlt)]

/-- Witness for the amended C6 at concrete values: a fresh successful check
at time 0, then a call at time 59 with the network down still returns the
stored result with `last_checked = 0`. -/
theorem c6_amended_cache_witness :
    OD.check_product [] (fun _ => none) 59
      (dictSet [] (pstr "https://shop.com/p")
        (0, { available := true, price := none, last_checked := 0 }))
      (pstr "https://shop.com/p")
      = (some { available := true, price := none, last_checked := 0 },
         dictSet [] (pstr "https://shop.com/p")
           (0, { available := true, price := none, last_checked := 0 })) := by
  exact c6_amended_cache [] (fun _ => some c6soup) 0 [] (pstr "https://shop.com/p")
    { available := true, price := none, last_checked := 0 } _
    (by decide) (by decide) (fun _ => none) 59 (by decide)
